import Mathlib

/-!
Shallow embedding of the optimistic mutation coordination engine of the
Publishing Control Surface: the workflow state machine (src/types/record.ts),
the pending-operation tracker (pendingOpsStore.ts), the single and batch
mutation coordinators (useRecords.ts) and the backing mock API (mockApi.ts).
Nondeterministic inputs of the source (nanoid identifiers, Date.now and
toISOString clock reads, the random failure simulation) are passed in as
explicit parameters.
-/

namespace PubCtl

/-- Workflow states, from the `Status` union in src/types/record.ts. -/
inductive Status
  | Queued
  | InReview
  | Approved
  | Published
  | Blocked
deriving DecidableEq, Repr

/-- Actions, from the `ActionType` union in src/types/record.ts. -/
inductive ActionType
  | review
  | approve
  | publish
  | block
deriving DecidableEq, Repr

/-- AI engines, from the `Engine` union in src/types/record.ts. -/
inductive Engine
  | ChatGPT
  | Gemini
  | Perplexity
deriving DecidableEq, Repr

/-- Impact levels, from the `Impact` union in src/types/record.ts. -/
inductive Impact
  | High
  | Medium
  | Low
deriving DecidableEq, Repr

/-- The `ContentRecord` interface of src/types/record.ts. `updatedAt` is the
ISO date string of the source, kept as an opaque string. -/
structure ContentRecord where
  id : String
  prompt : String
  engine : Engine
  status : Status
  impact : Impact
  safetyFlags : List String
  updatedAt : String
  blockReason : Option String
deriving DecidableEq, Repr

/-- The `from` field of `StatusTransition` is `Status | Status[]` in the
source; the union is modelled as an inductive. The field is renamed to
`fromS` because `from` is a Lean keyword. -/
inductive FromSpec
  | one (s : Status)
  | many (ss : List Status)
deriving DecidableEq, Repr

/-- The `StatusTransition` interface of src/types/record.ts. The `to` field
is renamed to `toS` because `to` is a reserved token in Lean. -/
structure StatusTransition where
  fromS : FromSpec
  toS : Status
  action : ActionType
deriving DecidableEq, Repr

/-- The `TRANSITIONS` table of src/types/record.ts. -/
def TRANSITIONS : List StatusTransition :=
  [ ⟨.one .Queued, .InReview, .review⟩,
    ⟨.one .InReview, .Approved, .approve⟩,
    ⟨.one .Approved, .Published, .publish⟩,
    ⟨.many [.Queued, .InReview, .Approved, .Published], .Blocked, .block⟩ ]

/-- The `fromMatches` test inside `getNextStatus`: `Array.isArray(t.from) ?
t.from.includes(currentStatus) : t.from === currentStatus`. -/
def fromMatches (f : FromSpec) (s : Status) : Bool :=
  match f with
  | .one t => t == s
  | .many ts => ts.contains s

/-- `getNextStatus` of src/types/record.ts: first matching transition, its
target, else null. -/
def getNextStatus (currentStatus : Status) (action : ActionType) : Option Status :=
  (TRANSITIONS.find? (fun t => fromMatches t.fromS currentStatus && t.action == action)).map
    (fun t => t.toS)

/-- `isValidAction` of src/types/record.ts. -/
def isValidAction (currentStatus : Status) (action : ActionType) : Bool :=
  (getNextStatus currentStatus action).isSome

/-- The transition table exactly as written in the spec (section 4.1), for
comparison with the implementation `getNextStatus`. -/
def specNextState (s : Status) (a : ActionType) : Option Status :=
  match s, a with
  | .Queued, .review => some .InReview
  | .InReview, .approve => some .Approved
  | .Approved, .publish => some .Published
  | .Queued, .block => some .Blocked
  | .InReview, .block => some .Blocked
  | .Approved, .block => some .Blocked
  | .Published, .block => some .Blocked
  | _, _ => none

/-- The `PendingOperation` interface of src/types/record.ts. -/
structure PendingOperation where
  id : String
  recordId : String
  action : ActionType
  previousStatus : Status
  timestamp : Nat
deriving DecidableEq, Repr

/-- The `operations` field of pendingOpsStore.ts, a `Map<string,
PendingOperation[]>`, modelled as an association list in insertion order. -/
abbrev OpsMap := List (String × List PendingOperation)

/-- `Map.get`: the value of the entry for the key, if present. -/
def mapGet (m : OpsMap) (k : String) : Option (List PendingOperation) :=
  (m.find? (fun e => e.1 == k)).map (fun e => e.2)

/-- `Map.set`: replace the value of an existing entry in place, else append a
new entry. -/
def mapSet (m : OpsMap) (k : String) (v : List PendingOperation) : OpsMap :=
  match m with
  | [] => [(k, v)]
  | e :: rest => if e.1 == k then (k, v) :: rest else e :: mapSet rest k v

/-- `Map.delete`: drop the entry for the key. -/
def mapDelete (m : OpsMap) (k : String) : OpsMap :=
  m.filter (fun e => !(e.1 == k))

/-- `hasPendingOps` of pendingOpsStore.ts: `ops !== undefined && ops.length > 0`. -/
def hasPendingOps (m : OpsMap) (recordId : String) : Bool :=
  match mapGet m recordId with
  | none => false
  | some ops => decide (0 < ops.length)

/-- `getLatestAction` of pendingOpsStore.ts: the action of the last element of
the operation list, or null. -/
def getLatestAction (m : OpsMap) (recordId : String) : Option ActionType :=
  match mapGet m recordId with
  | none => none
  | some ops => if ops.length = 0 then none else ops.getLast?.map (fun op => op.action)

/-- `getOperations` of pendingOpsStore.ts: `operations.get(recordId) || []`. -/
def getOperations (m : OpsMap) (recordId : String) : List PendingOperation :=
  (mapGet m recordId).getD []

/-- `addOperation` of pendingOpsStore.ts. The source draws `operationId` from
`nanoid()` and `timestamp` from `Date.now()`; both are explicit parameters
here. Only the updated map is returned; the source also returns the id. -/
def addOperation (m : OpsMap) (recordId : String) (action : ActionType)
    (previousStatus : Status) (freshId : String) (tsNow : Nat) : OpsMap :=
  let operation : PendingOperation :=
    { id := freshId, recordId := recordId, action := action,
      previousStatus := previousStatus, timestamp := tsNow }
  let existing := (mapGet m recordId).getD []
  mapSet m recordId (existing ++ [operation])

/-- `removeOperation` of pendingOpsStore.ts: filter the entity's list by
operation id; delete the key when the filtered list is empty. -/
def removeOperation (m : OpsMap) (operationId recordId : String) : OpsMap :=
  let existing := (mapGet m recordId).getD []
  let filtered := existing.filter (fun op => !(op.id == operationId))
  if filtered.length = 0 then mapDelete m recordId else mapSet m recordId filtered

/-- `clearOperations` of pendingOpsStore.ts. -/
def clearOperations (m : OpsMap) (recordId : String) : OpsMap :=
  mapDelete m recordId

/-- `getPendingCount` of pendingOpsStore.ts: `ops?.length ?? 0`. -/
def getPendingCount (m : OpsMap) (recordId : String) : Nat :=
  match mapGet m recordId with
  | none => 0
  | some ops => ops.length

/-- Tracker mutations, for stating the reachable-state invariant. -/
inductive TrackerCmd
  | add (recordId : String) (action : ActionType) (previousStatus : Status)
      (freshId : String) (tsNow : Nat)
  | remove (operationId recordId : String)
  | clear (recordId : String)

/-- Apply one tracker mutation. -/
def applyCmd (m : OpsMap) : TrackerCmd → OpsMap
  | .add rid a s fid ts => addOperation m rid a s fid ts
  | .remove oid rid => removeOperation m oid rid
  | .clear rid => clearOperations m rid

/-- Apply a sequence of tracker mutations in order. -/
def applyCmds (m : OpsMap) (cmds : List TrackerCmd) : OpsMap :=
  cmds.foldl applyCmd m

/-- Well-formedness of the operations map: no entry holds an empty operation
list. This is the decidable, entry-wise phrasing. -/
def WFOps (m : OpsMap) : Prop :=
  ∀ e ∈ m, e.2 ≠ ([] : List PendingOperation)

/-- The variables of a single mutation, the parameter record of
`useRecordMutation` in useRecords.ts (also `MutationParams` of record.ts). -/
structure MutationVars where
  recordId : String
  action : ActionType
  blockReason : Option String
deriving DecidableEq, Repr

/-- The context returned by `onMutate` of `useRecordMutation`. -/
structure MutationContext where
  previousRecord : ContentRecord
  operationId : String
deriving DecidableEq, Repr

/-- The two synchronous failures thrown inside `onMutate`: `new Error('Record
not found')` and `new Error('Invalid transition')`. -/
inductive MutateError
  | notFound
  | invalidTransition
deriving DecidableEq, Repr

/-- The client-side state touched by the coordinator: the TanStack Query list
caches (one list of records per cached query, in query order) and the pending
operations map of pendingOpsStore.ts. -/
structure CoordState where
  caches : List (List ContentRecord)
  ops : OpsMap
deriving DecidableEq, Repr

/-- The record lookup loop of `onMutate` (useRecords.ts lines 59 to 69): scan
the caches in order, take the first record whose id matches, stop there. -/
def findRecord : List (List ContentRecord) → String → Option ContentRecord
  | [], _ => none
  | c :: cs, rid =>
    match c.find? (fun r => r.id == rid) with
    | some r => some r
    | none => findRecord cs rid

/-- The per-record optimistic updater of `onMutate` (useRecords.ts lines 95 to
100): new status, fresh updatedAt, and `blockReason: variables.blockReason ??
r.blockReason`. Note the source uses the nullish coalescing of the supplied
reason, not a test on the action. -/
def applyOptimistic (v : MutationVars) (nextStatus : Status) (now : String)
    (r : ContentRecord) : ContentRecord :=
  { r with status := nextStatus, updatedAt := now,
           blockReason := match v.blockReason with
             | some b => some b
             | none => r.blockReason }

/-- `onMutate` of `useRecordMutation` (useRecords.ts lines 50 to 108). The
fresh operation id (`nanoid()` inside `addOperation`), the operation timestamp
(`Date.now()`) and the optimistic `updatedAt` (`new Date().toISOString()`) are
explicit parameters. A thrown error is the `Except.error` side; the state
reached at the throw point is returned alongside, since `addOperation` runs
before the `getNextStatus` validation and its effect persists. -/
def onMutate (v : MutationVars) (freshId : String) (tsNow : Nat) (now : String)
    (st : CoordState) : Except MutateError MutationContext × CoordState :=
  match findRecord st.caches v.recordId with
  | none => (Except.error .notFound, st)
  | some previousRecord =>
    let ops1 := addOperation st.ops v.recordId v.action previousRecord.status freshId tsNow
    match getNextStatus previousRecord.status v.action with
    | none => (Except.error .invalidTransition, { st with ops := ops1 })
    | some nextStatus =>
      let caches1 := st.caches.map (fun c => c.map (fun r =>
        if r.id == v.recordId then applyOptimistic v nextStatus now r else r))
      (Except.ok { previousRecord := previousRecord, operationId := freshId },
       { caches := caches1, ops := ops1 })

/-- `onError` of `useRecordMutation` (useRecords.ts lines 110 to 136): when a
context is present, write the snapshot back over every cache entry with the
record id, then remove the pending operation. When `onMutate` itself threw,
TanStack Query invokes `onError` with an undefined context and both guarded
blocks are skipped. -/
def onError (v : MutationVars) (context : Option MutationContext)
    (st : CoordState) : CoordState :=
  match context with
  | none => st
  | some ctx =>
    let caches1 := st.caches.map (fun c => c.map (fun r =>
      if r.id == v.recordId then ctx.previousRecord else r))
    { caches := caches1, ops := removeOperation st.ops ctx.operationId v.recordId }

/-- `onSuccess` of `useRecordMutation` (useRecords.ts lines 138 to 154): only
removes the pending operation; the optimistic cache state is kept. -/
def onSuccess (v : MutationVars) (context : Option MutationContext)
    (st : CoordState) : CoordState :=
  match context with
  | none => st
  | some ctx => { st with ops := removeOperation st.ops ctx.operationId v.recordId }

/-- The `ApiError` class of mockApi.ts: message plus code. -/
structure ApiError where
  message : String
  code : String
deriving DecidableEq, Repr

/-- Rendering of a status into the string interpolated by mockApi.ts. -/
def statusName : Status → String
  | .Queued => "Queued"
  | .InReview => "InReview"
  | .Approved => "Approved"
  | .Published => "Published"
  | .Blocked => "Blocked"

/-- Rendering of an action into the string interpolated by mockApi.ts. -/
def actionName : ActionType → String
  | .review => "review"
  | .approve => "approve"
  | .publish => "publish"
  | .block => "block"

/-- The NETWORK_ERROR failure of `updateRecord`. -/
def networkError : ApiError :=
  ⟨"Network error: Request failed. Please try again.", "NETWORK_ERROR"⟩

/-- The NOT_FOUND failure of `updateRecord`. -/
def notFoundError : ApiError :=
  ⟨"Record not found", "NOT_FOUND"⟩

/-- The INVALID_TRANSITION failure of `updateRecord`, with its interpolated
message. -/
def invalidTransitionError (action : ActionType) (status : Status) : ApiError :=
  ⟨"Invalid transition: Cannot " ++ actionName action ++ " a record with status \""
      ++ statusName status ++ "\"",
   "INVALID_TRANSITION"⟩

/-- `mockApi.updateRecord` (mockApi.ts lines 294 to 330). The random failure
draw (`shouldFail()`) is the boolean parameter `fails`; the latency delay has
no observable effect on state and is dropped; `new Date().toISOString()` is
the parameter `now`. Returns the updated record and the updated store. -/
def updateRecord (fails : Bool) (params : MutationVars) (now : String)
    (store : List ContentRecord) : Except ApiError (ContentRecord × List ContentRecord) :=
  if fails then Except.error networkError
  else
    match store.findIdx? (fun r => r.id == params.recordId) with
    | none => Except.error notFoundError
    | some i =>
      match store[i]? with
      | none => Except.error notFoundError
      | some record =>
        match getNextStatus record.status params.action with
        | none => Except.error (invalidTransitionError params.action record.status)
        | some nextStatus =>
          let newReason : Option String :=
            if params.action == .block then params.blockReason else record.blockReason
          let updatedRecord : ContentRecord :=
            { record with status := nextStatus, updatedAt := now, blockReason := newReason }
          Except.ok (updatedRecord, store.set i updatedRecord)

/-- The `BatchResult` interface of record.ts; a failed entry pairs the record
id with the error message string, as in mockApi.ts `batchUpdate`. -/
structure BatchResult where
  successful : List ContentRecord
  failed : List (String × String)
deriving DecidableEq, Repr

/-- `mockApi.batchUpdate` (mockApi.ts lines 333 to 360): every record id is
passed independently to `updateRecord`, failures are caught and recorded, and
the store is threaded through. Settlement order is modelled as list order;
`fails` gives the per-id result of the failure simulation. -/
def batchUpdate (fails : String → Bool) (recordIds : List String)
    (action : ActionType) (blockReason : Option String) (now : String)
    (store : List ContentRecord) : BatchResult × List ContentRecord :=
  recordIds.foldl
    (fun acc rid =>
      match updateRecord (fails rid) ⟨rid, action, blockReason⟩ now acc.2 with
      | Except.ok (rec, store1) => (⟨acc.1.successful ++ [rec], acc.1.failed⟩, store1)
      | Except.error e => (⟨acc.1.successful, acc.1.failed ++ [(rid, e.message)]⟩, acc.2))
    (⟨[], []⟩, store)

/-- The toast picked by `useBatchMutation.onSuccess` (useRecords.ts lines 264
to 286): success when nothing failed and something succeeded, error when
nothing succeeded and something failed, warning when the outcome is mixed. -/
inductive BatchToast
  | successToast
  | errorToast
  | warningToast
  | noToast
deriving DecidableEq, Repr

/-- The classification branch structure of `useBatchMutation.onSuccess`. -/
def classifyBatch (successCount failCount : Nat) : BatchToast :=
  if failCount = 0 ∧ 0 < successCount then .successToast
  else if successCount = 0 ∧ 0 < failCount then .errorToast
  else if 0 < failCount then .warningToast
  else .noToast

/-- The full client plus mock server state for one mutation round trip. -/
structure SysState where
  coord : CoordState
  server : List ContentRecord
deriving DecidableEq, Repr

/-- Outcome of one full `mutate` call. -/
inductive MutateResult
  | committed (rec : ContentRecord)
  | failedSync (e : MutateError)
  | failedAsync (e : ApiError)
deriving DecidableEq, Repr

/-- One full `mutate` pipeline with no interleaving, as TanStack Query drives
it: `onMutate`; when it throws, `onError` with an undefined context and the
backing call is never invoked; otherwise `updateRecord` and then `onSuccess`
on success or `onError` with the context on failure. -/
def runMutate (v : MutationVars) (freshId : String) (tsNow : Nat)
    (now nowServer : String) (backingFails : Bool) (sys : SysState) :
    MutateResult × SysState :=
  match onMutate v freshId tsNow now sys.coord with
  | (Except.error e, coord1) =>
    (.failedSync e, { sys with coord := onError v none coord1 })
  | (Except.ok ctx, coord1) =>
    match updateRecord backingFails v nowServer sys.server with
    | Except.error apiErr =>
      (.failedAsync apiErr, { coord := onError v (some ctx) coord1, server := sys.server })
    | Except.ok (rec, server1) =>
      (.committed rec, { coord := onSuccess v (some ctx) coord1, server := server1 })

/-- A concrete record in the Blocked state, cached and on the server. -/
def blockedRecord : ContentRecord :=
  ⟨"rec-1", "prompt-1", .ChatGPT, .Blocked, .High, [], "2026-01-01T00:00:00.000Z", some "old"⟩

/-- System holding only `blockedRecord`, with an idle tracker. -/
def blockedSys : SysState := ⟨⟨[[blockedRecord]], []⟩, [blockedRecord]⟩

/-- A full `mutate(rec-1, approve)` against `blockedSys`: the Workflow Machine
rejects approve from Blocked. -/
def blockedApproveRun : MutateResult × SysState :=
  runMutate ⟨"rec-1", .approve, none⟩ "op-1" 5 "t1" "t2" false blockedSys

/-- A concrete record in the InReview state, for the overlapping-operations
runs. -/
def reviewRecord : ContentRecord :=
  ⟨"e1", "prompt-e1", .Gemini, .InReview, .Medium, [], "t0", none⟩

/-- Client state holding only `reviewRecord`, with an idle tracker. -/
def overlapSt0 : CoordState := ⟨[[reviewRecord]], []⟩

/-- Operation A: approve issued against `overlapSt0`. -/
def overlapRunA : Except MutateError MutationContext × CoordState :=
  onMutate ⟨"e1", .approve, none⟩ "opA" 1 "tA" overlapSt0

/-- Operation B: block issued while A is still pending. -/
def overlapRunB : Except MutateError MutationContext × CoordState :=
  onMutate ⟨"e1", .block, some "policy"⟩ "opB" 2 "tB" overlapRunA.2

/-- The client state after the backing call of A fails and its `onError`
callback runs, while B is still pending. -/
def overlapAfterAFails : CoordState :=
  onError ⟨"e1", .approve, none⟩ overlapRunA.1.toOption overlapRunB.2

/-- A concrete record in the Queued state with no block reason. -/
def queuedRecord : ContentRecord :=
  ⟨"c5", "prompt-c5", .Perplexity, .Queued, .Low, [], "t0", none⟩

/-- A review mutation that also supplies a reason string, against
`queuedRecord`. -/
def reviewWithReasonRun : Except MutateError MutationContext × CoordState :=
  onMutate ⟨"c5", .review, some "sneaky"⟩ "op5" 3 "t5" ⟨[[queuedRecord]], []⟩

/-- Operation A of the overlapping scenario: approve issued on entity `e`
held alone in one cache, idle tracker. -/
def overlapA (e : ContentRecord) : Except MutateError MutationContext × CoordState :=
  onMutate ⟨e.id, .approve, none⟩ "opA" 1 "tA" ⟨[[e]], []⟩

/-- Operation B of the overlapping scenario, issued while A is pending. -/
def overlapB (e : ContentRecord) : Except MutateError MutationContext × CoordState :=
  onMutate ⟨e.id, .block, some "policy"⟩ "opB" 2 "tB" (overlapA e).2

/-- First ordering: the backing call of A fails after B was applied; the
`onError` callback of A runs against the state left by B. -/
def overlapAFailsAfterB (e : ContentRecord) : CoordState :=
  onError ⟨e.id, .approve, none⟩ (overlapA e).1.toOption (overlapB e).2

/-- Second ordering: A commits (its `onSuccess` runs) before B is issued. -/
def overlapACommits (e : ContentRecord) : CoordState :=
  onSuccess ⟨e.id, .approve, none⟩ (overlapA e).1.toOption (overlapA e).2

/-- Operation B issued after A committed. -/
def overlapBAfterCommit (e : ContentRecord) : Except MutateError MutationContext × CoordState :=
  onMutate ⟨e.id, .block, some "policy"⟩ "opB" 2 "tB" (overlapACommits e)

/-- The record produced by the optimistic apply of B in the overlapping
scenario: Blocked, stamped tB, carrying the policy reason. -/
def blockedVariant (e : ContentRecord) : ContentRecord :=
  { e with status := Status.Blocked, updatedAt := "tB", blockReason := some "policy" }

/-- The committed record of a block mutation on `queuedRecord` with supplied
reason why, stamped t9. -/
def blockedQueuedRecord : ContentRecord :=
  { queuedRecord with status := Status.Blocked, updatedAt := "t9", blockReason := some "why" }

/-- A concrete record in the Approved state. -/
def approvedRecord : ContentRecord :=
  ⟨"x1", "prompt-x1", .ChatGPT, .Approved, .High, [], "t0", none⟩

/-- The record a successful publish produces from `x`: Published, stamped
with the server clock, reason untouched. -/
def publishedVariant (x : ContentRecord) (nowS : String) : ContentRecord :=
  { x with status := Status.Published, updatedAt := nowS }

theorem mapGet_nil (k : String) : mapGet [] k = none := rfl

theorem mapGet_cons (e : String × List PendingOperation) (m : OpsMap) (k : String) :
    mapGet (e :: m) k = if e.1 == k then some e.2 else mapGet m k := by
  simp only [mapGet, List.find?]
  cases h : e.1 == k <;> simp [h]

theorem mapGet_mapSet (m : OpsMap) (k k' : String) (v : List PendingOperation) :
    mapGet (mapSet m k v) k' = if k' = k then some v else mapGet m k' := by
  induction m with
  | nil =>
    simp only [mapSet, mapGet_cons, mapGet_nil]
    by_cases h : k' = k
    · simp [h]
    · simp [h, beq_eq_false_iff_ne.mpr (Ne.symm h)]
  | cons e rest ih =>
    simp only [mapSet]
    by_cases he : e.1 = k
    · subst he
      simp only [beq_self_eq_true, if_true, mapGet_cons]
      by_cases h : k' = e.1
      · simp [h]
      · simp [h, beq_eq_false_iff_ne.mpr (Ne.symm h)]
    · simp only [beq_eq_false_iff_ne.mpr he, Bool.false_eq_true, if_false, mapGet_cons, ih]
      by_cases h : k' = k
      · subst h
        simp [beq_eq_false_iff_ne.mpr he]
      · simp [h]

theorem mapGet_mapDelete (m : OpsMap) (k k' : String) :
    mapGet (mapDelete m k) k' = if k' = k then none else mapGet m k' := by
  induction m with
  | nil =>
    by_cases h : k' = k <;> simp [mapDelete, mapGet_nil, h]
  | cons e rest ih =>
    simp only [mapDelete, List.filter_cons] at ih ⊢
    by_cases he : e.1 = k
    · simp only [beq_eq_false_iff_ne, he, beq_self_eq_true, Bool.not_true, Bool.false_eq_true,
        if_false, ih]
      by_cases h : k' = k
      · simp [h]
      · simp [h, mapGet_cons, he, Ne.symm h]
    · simp only [beq_eq_false_iff_ne.mpr he, Bool.not_false, if_true, mapGet_cons, ih]
      by_cases h : k' = k
      · subst h
        simp [beq_eq_false_iff_ne.mpr he]
      · simp [h]

theorem getOperations_def (m : OpsMap) (rid : String) :
    getOperations m rid = (mapGet m rid).getD [] := rfl

theorem hasPendingOps_eq_isEmpty (m : OpsMap) (rid : String) :
    hasPendingOps m rid = !(getOperations m rid).isEmpty := by
  unfold hasPendingOps getOperations
  cases mapGet m rid with
  | none => rfl
  | some ops => cases ops <;> simp

theorem getPendingCount_eq_length (m : OpsMap) (rid : String) :
    getPendingCount m rid = (getOperations m rid).length := by
  unfold getPendingCount getOperations
  cases mapGet m rid <;> simp

theorem getLatestAction_eq_getLast (m : OpsMap) (rid : String) :
    getLatestAction m rid = (getOperations m rid).getLast?.map (fun op => op.action) := by
  unfold getLatestAction getOperations
  cases mapGet m rid with
  | none => simp
  | some ops => cases ops <;> simp

theorem getOperations_addOperation_self (m : OpsMap) (rid : String) (a : ActionType)
    (s : Status) (fid : String) (ts : Nat) :
    getOperations (addOperation m rid a s fid ts) rid
      = getOperations m rid ++ [⟨fid, rid, a, s, ts⟩] := by
  unfold addOperation getOperations
  simp [mapGet_mapSet]

theorem getOperations_addOperation_other (m : OpsMap) (rid : String) (a : ActionType)
    (s : Status) (fid : String) (ts : Nat) (rid2 : String) (h : rid2 ≠ rid) :
    getOperations (addOperation m rid a s fid ts) rid2 = getOperations m rid2 := by
  unfold addOperation getOperations
  simp [mapGet_mapSet, h]

theorem getOperations_removeOperation_self (m : OpsMap) (oid rid : String) :
    getOperations (removeOperation m oid rid) rid
      = (getOperations m rid).filter (fun op => !(op.id == oid)) := by
  simp only [removeOperation, getOperations]
  split
  next h =>
    simp only [mapGet_mapDelete, if_pos rfl, Option.getD_none]
    exact (List.length_eq_zero.mp h).symm
  next h =>
    simp [mapGet_mapSet]

theorem getOperations_removeOperation_other (m : OpsMap) (oid rid : String)
    (rid2 : String) (h : rid2 ≠ rid) :
    getOperations (removeOperation m oid rid) rid2 = getOperations m rid2 := by
  simp only [removeOperation, getOperations]
  split <;> simp [mapGet_mapDelete, mapGet_mapSet, h]

theorem mapSet_get_self (m : OpsMap) (k : String) (v : List PendingOperation)
    (h : mapGet m k = some v) : mapSet m k v = m := by
  induction m with
  | nil => simp [mapGet_nil] at h
  | cons e rest ih =>
    rw [mapGet_cons] at h
    by_cases he : e.1 = k
    · obtain ⟨e1, e2⟩ := e
      simp only at he
      subst he
      simp only [beq_self_eq_true, if_true, Option.some.injEq] at h
      subst h
      simp [mapSet]
    · rw [if_neg (by simp [he]), ] at h
      simp [mapSet, beq_eq_false_iff_ne.mpr he, ih h]

theorem mapDelete_of_get_none (m : OpsMap) (k : String) (h : mapGet m k = none) :
    mapDelete m k = m := by
  induction m with
  | nil => rfl
  | cons e rest ih =>
    rw [mapGet_cons] at h
    by_cases he : e.1 = k
    · rw [if_pos (by simp [he])] at h
      cases h
    · rw [if_neg (by simp [he])] at h
      simp [mapDelete, List.filter_cons, beq_eq_false_iff_ne.mpr he] at ih ⊢
      exact ih h

theorem mapGet_mem_of_some (m : OpsMap) (k : String) (v : List PendingOperation)
    (h : mapGet m k = some v) : ∃ e ∈ m, e.2 = v := by
  unfold mapGet at h
  obtain ⟨e, he, hev⟩ := Option.map_eq_some'.mp h
  exact ⟨e, List.mem_of_find?_eq_some he, hev⟩

theorem removeOperation_noop (m : OpsMap) (oid rid : String) (hwf : WFOps m)
    (h : ∀ op ∈ getOperations m rid, op.id ≠ oid) :
    removeOperation m oid rid = m := by
  have hfilter : ((mapGet m rid).getD []).filter (fun op => !(op.id == oid))
      = (mapGet m rid).getD [] := by
    apply List.filter_eq_self.mpr
    intro op hop
    simp [beq_eq_false_iff_ne.mpr (h op hop)]
  simp only [removeOperation]
  rw [hfilter]
  cases hm : mapGet m rid with
  | none =>
    simp only [hm, Option.getD_none, List.length_nil, if_pos rfl]
    exact mapDelete_of_get_none m rid hm
  | some v =>
    obtain ⟨e, hem, hev⟩ := mapGet_mem_of_some m rid v hm
    have hv : v ≠ [] := hev ▸ hwf e hem
    simp only [Option.getD_some]
    rw [if_neg (by simpa [List.length_eq_zero] using hv)]
    exact mapSet_get_self m rid v hm

theorem invGet_applyCmd (m : OpsMap) (c : TrackerCmd)
    (h : ∀ k v, mapGet m k = some v → v ≠ []) :
    ∀ k v, mapGet (applyCmd m c) k = some v → v ≠ [] := by
  cases c with
  | add rid a s fid ts =>
    intro k v hv
    simp only [applyCmd, addOperation, mapGet_mapSet] at hv
    split at hv
    · cases hv
      simp
    · exact h k v hv
  | remove oid rid =>
    intro k v hv
    simp only [applyCmd, removeOperation] at hv
    split at hv
    · rw [mapGet_mapDelete] at hv
      split at hv
      · cases hv
      · exact h k v hv
    · next hlen =>
      rw [mapGet_mapSet] at hv
      split at hv
      · cases hv
        intro hc
        rw [hc] at hlen
        exact hlen rfl
      · exact h k v hv
  | clear rid =>
    intro k v hv
    simp only [applyCmd, clearOperations, mapGet_mapDelete] at hv
    split at hv
    · cases hv
    · exact h k v hv

theorem invGet_applyCmds (cmds : List TrackerCmd) :
    ∀ k v, mapGet (applyCmds [] cmds) k = some v → v ≠ [] := by
  suffices hgen : ∀ m, (∀ k v, mapGet m k = some v → v ≠ []) →
      ∀ k v, mapGet (applyCmds m cmds) k = some v → v ≠ [] by
    refine hgen [] ?_
    intro k v hv
    simp [mapGet_nil] at hv
  induction cmds with
  | nil =>
    intro m hm
    exact hm
  | cons c cs ih =>
    intro m hm
    exact ih (applyCmd m c) (invGet_applyCmd m c hm)

theorem hasPendingOps_iff_count (m : OpsMap) (rid : String) :
    hasPendingOps m rid = true ↔ 0 < getPendingCount m rid := by
  rw [hasPendingOps_eq_isEmpty, getPendingCount_eq_length]
  cases getOperations m rid <;> simp

theorem hasPendingOps_iff_latest (m : OpsMap) (rid : String) :
    hasPendingOps m rid = true ↔ (getLatestAction m rid).isSome = true := by
  rw [hasPendingOps_eq_isEmpty, getLatestAction_eq_getLast]
  cases h : getOperations m rid with
  | nil => simp
  | cons a l => simp [List.getLast?_isSome]

theorem onError_caches_anchor (v : MutationVars) (ctx : MutationContext) (st : CoordState) :
    ∀ c ∈ (onError v (some ctx) st).caches, ∀ r ∈ c,
      r.id = v.recordId → r = ctx.previousRecord := by
  intro c hc r hr hid
  simp only [onError] at hc
  obtain ⟨c0, _, rfl⟩ := List.mem_map.mp hc
  obtain ⟨r0, _, rfl⟩ := List.mem_map.mp hr
  by_cases h : r0.id = v.recordId
  · simp [h]
  · rw [if_neg (by simp [h])] at hid ⊢
    exact absurd hid h

theorem filter_append_fresh (old : List PendingOperation) (op : PendingOperation)
    (fid : String) (hid : op.id = fid) (hfresh : ∀ o ∈ old, o.id ≠ fid) :
    (old ++ [op]).filter (fun o => !(o.id == fid)) = old := by
  rw [List.filter_append]
  have h1 : old.filter (fun o => !(o.id == fid)) = old :=
    List.filter_eq_self.mpr (fun o ho => by simp [beq_eq_false_iff_ne.mpr (hfresh o ho)])
  have h2 : [op].filter (fun o => !(o.id == fid)) = [] := by simp [hid]
  rw [h1, h2, List.append_nil]

/-- C2 (confirmed): `getNextStatus` agrees with the spec transition table on
every (state, action) pair: the four listed rows produce exactly their listed
targets, and every pair not listed, such as (Blocked, approve), (Queued,
publish), (Published, review) and (Blocked, block), yields Rejected (none). -/
theorem c2_getNextStatus_matches_table :
    ∀ s a, getNextStatus s a = specNextState s a := by
  intro s a
  cases s <;> cases a <;> rfl

/-- C7 (confirmed): right after an operation is added for an entity, its
action is what `getLatestAction` reports, even when earlier operations are
still pending (the pending count grows by one, nothing is displaced); with no
pending operation `getLatestAction` reports none. -/
theorem c7_latestAction_most_recent (m : OpsMap) (rid : String) (a : ActionType)
    (s : Status) (fid : String) (ts : Nat) :
    getLatestAction (addOperation m rid a s fid ts) rid = some a ∧
    getPendingCount (addOperation m rid a s fid ts) rid = getPendingCount m rid + 1 ∧
    (hasPendingOps m rid = false → getLatestAction m rid = none) := by
  refine ⟨?_, ?_, ?_⟩
  · rw [getLatestAction_eq_getLast, getOperations_addOperation_self]
    simp
  · rw [getPendingCount_eq_length, getPendingCount_eq_length,
      getOperations_addOperation_self]
    simp
  · intro hfalse
    rw [hasPendingOps_eq_isEmpty] at hfalse
    rw [getLatestAction_eq_getLast]
    cases h : getOperations m rid with
    | nil => simp
    | cons p l =>
      rw [h] at hfalse
      simp at hfalse

/-- Witness for C7 at a concrete tracker state. -/
theorem c7_latestAction_witness :
    getLatestAction (addOperation [] "e1" ActionType.review Status.Queued "op1" 0) "e1"
      = some ActionType.review ∧
    getLatestAction [] "e1" = none :=
  ⟨(c7_latestAction_most_recent [] "e1" ActionType.review Status.Queued "op1" 0).1,
   (c7_latestAction_most_recent [] "e1" ActionType.review Status.Queued "op1" 0).2.2 rfl⟩

/-- C8 (confirmed): `removeOperation` keeps, in order, exactly the operations
of the entity whose id differs from the given one, leaves every other entity
untouched, reports no pending work exactly when the filtered list is empty,
and is a no-op on a well-formed tracker when the identity is absent. -/
theorem c8_removeOperation_exact (m : OpsMap) (oid rid : String) :
    getOperations (removeOperation m oid rid) rid
      = (getOperations m rid).filter (fun op => !(op.id == oid)) ∧
    (∀ rid2, rid2 ≠ rid →
      getOperations (removeOperation m oid rid) rid2 = getOperations m rid2) ∧
    hasPendingOps (removeOperation m oid rid) rid
      = !((getOperations m rid).filter (fun op => !(op.id == oid))).isEmpty ∧
    (WFOps m → (∀ op ∈ getOperations m rid, op.id ≠ oid) →
      removeOperation m oid rid = m) := by
  refine ⟨getOperations_removeOperation_self m oid rid,
    fun rid2 h => getOperations_removeOperation_other m oid rid rid2 h, ?_,
    removeOperation_noop m oid rid⟩
  rw [hasPendingOps_eq_isEmpty, getOperations_removeOperation_self]

/-- Witness for C8: removing an absent identity is a no-op, and removing the
only operation empties the entity's log. -/
theorem c8_removeOperation_witness :
    removeOperation [("e1", [⟨"op1", "e1", ActionType.review, Status.Queued, 0⟩])] "op2" "e1"
      = [("e1", [⟨"op1", "e1", ActionType.review, Status.Queued, 0⟩])] ∧
    getOperations
      (removeOperation [("e1", [⟨"op1", "e1", ActionType.review, Status.Queued, 0⟩])]
        "op1" "e1") "e1" = [] := by
  constructor
  · exact (c8_removeOperation_exact
      [("e1", [⟨"op1", "e1", ActionType.review, Status.Queued, 0⟩])] "op2" "e1").2.2.2
      (by unfold WFOps; decide) (by decide)
  · rw [(c8_removeOperation_exact
      [("e1", [⟨"op1", "e1", ActionType.review, Status.Queued, 0⟩])] "op1" "e1").1]
    rfl

/-- C10 (confirmed): in every tracker state reachable from the empty tracker,
`hasPendingOps` is true exactly when `getPendingCount` is positive, exactly
when `getLatestAction` is non-null, and the operations map holds no empty
operation list under any key. -/
theorem c10_tracker_accessors_consistent (cmds : List TrackerCmd) (rid : String) :
    (hasPendingOps (applyCmds [] cmds) rid = true ↔
      0 < getPendingCount (applyCmds [] cmds) rid) ∧
    (hasPendingOps (applyCmds [] cmds) rid = true ↔
      (getLatestAction (applyCmds [] cmds) rid).isSome = true) ∧
    (∀ k v, mapGet (applyCmds [] cmds) k = some v → v ≠ []) :=
  ⟨hasPendingOps_iff_count _ rid, hasPendingOps_iff_latest _ rid, invGet_applyCmds cmds⟩

/-- Witness for C10 on a one-command history. -/
theorem c10_tracker_witness :
    (hasPendingOps (applyCmds [] [TrackerCmd.add "e1" ActionType.review Status.Queued "op1" 0])
        "e1" = true ↔
      0 < getPendingCount
        (applyCmds [] [TrackerCmd.add "e1" ActionType.review Status.Queued "op1" 0]) "e1") ∧
    ([⟨"op1", "e1", ActionType.review, Status.Queued, 0⟩] : List PendingOperation) ≠ [] :=
  ⟨(c10_tracker_accessors_consistent
      [TrackerCmd.add "e1" ActionType.review Status.Queued "op1" 0] "e1").1,
   (c10_tracker_accessors_consistent
      [TrackerCmd.add "e1" ActionType.review Status.Queued "op1" 0] "e1").2.2
      "e1" [⟨"op1", "e1", ActionType.review, Status.Queued, 0⟩] (by decide)⟩

/-- C9 (confirmed): a `mutate` on an entity id absent from every cache fails
synchronously with the not-found outcome; the backing call is never reached
and the whole system state, tracker and caches included, is returned
unchanged. -/
theorem c9_notFound_fail_fast (v : MutationVars) (fid : String) (ts : Nat)
    (now nowS : String) (bf : Bool) (sys : SysState)
    (h : findRecord sys.coord.caches v.recordId = none) :
    runMutate v fid ts now nowS bf sys
      = (MutateResult.failedSync MutateError.notFound, sys) := by
  unfold runMutate onMutate
  rw [h]
  rfl

/-- Witness for C9 on an empty cache. -/
theorem c9_notFound_witness :
    runMutate ⟨"ghost", ActionType.review, none⟩ "op1" 0 "t1" "t2" false ⟨⟨[], []⟩, []⟩
      = (MutateResult.failedSync MutateError.notFound, ⟨⟨[], []⟩, []⟩) :=
  c9_notFound_fail_fast ⟨"ghost", ActionType.review, none⟩ "op1" 0 "t1" "t2" false
    ⟨⟨[], []⟩, []⟩ rfl

/-- C1 (code bug): a mutate on a cached entity whose current state rejects
the action does fail with the invalid-transition outcome and leaves every
cache untouched, but a pending operation HAS been created and survives the
failure handling: `addOperation` runs before the `getNextStatus` validation,
and since `onMutate` threw, `onError` receives no context and never removes
it. Evaluated here on a Blocked record receiving approve. -/
theorem c1_invalid_transition_leaks_pending_op :
    blockedApproveRun.1 = MutateResult.failedSync MutateError.invalidTransition ∧
    blockedApproveRun.2.coord.caches = blockedSys.coord.caches ∧
    hasPendingOps blockedSys.coord.ops "rec-1" = false ∧
    hasPendingOps blockedApproveRun.2.coord.ops "rec-1" = true ∧
    getOperations blockedApproveRun.2.coord.ops "rec-1"
      = [⟨"op-1", "rec-1", ActionType.approve, Status.Blocked, 5⟩] :=
  ⟨rfl, rfl, rfl, rfl, rfl⟩

/-- C3 counterexample: entity e1 starts at InReview; approve (A) is issued,
then block (B) while A is pending; the backing call of A fails and its
failure handling runs. The cached record equals A's anchor, but
`hasPendingOps` is still true, because B's operation is still pending --
against the claim that it is false after every failed mutate is handled. -/
theorem c3_overlap_counterexample :
    ¬ (hasPendingOps overlapAfterAFails.ops "e1" = false) ∧
    findRecord overlapAfterAFails.caches "e1" = some reviewRecord := by
  constructor
  · have h : hasPendingOps overlapAfterAFails.ops "e1" = true := rfl
    simp [h]
  · rfl

/-- C3 (amended): when the backing call of a validated mutate fails, the
failure handling restores every cached copy of the entity to the anchor
snapshot captured when the operation began and removes exactly its own
pending operation; `hasPendingOps` hence becomes false whenever the failed
operation was the entity's only pending one. -/
theorem c3_rollback_restores_anchor (sys : SysState) (v : MutationVars)
    (fid : String) (ts : Nat) (now nowS : String) (prev : ContentRecord) (ns : Status)
    (hfind : findRecord sys.coord.caches v.recordId = some prev)
    (hnext : getNextStatus prev.status v.action = some ns)
    (hfresh : ∀ op ∈ getOperations sys.coord.ops v.recordId, op.id ≠ fid) :
    (∀ c ∈ ((runMutate v fid ts now nowS true sys).2).coord.caches,
        ∀ r ∈ c, r.id = v.recordId → r = prev) ∧
    getOperations ((runMutate v fid ts now nowS true sys).2).coord.ops v.recordId
      = getOperations sys.coord.ops v.recordId ∧
    (hasPendingOps sys.coord.ops v.recordId = false →
      hasPendingOps ((runMutate v fid ts now nowS true sys).2).coord.ops v.recordId
        = false) := by
  have honm : onMutate v fid ts now sys.coord
      = (Except.ok ⟨prev, fid⟩,
         ⟨sys.coord.caches.map (fun c => c.map (fun r =>
             if r.id == v.recordId then applyOptimistic v ns now r else r)),
          addOperation sys.coord.ops v.recordId v.action prev.status fid ts⟩) := by
    unfold onMutate
    rw [hfind]
    simp only [hnext]
  have hrun : (runMutate v fid ts now nowS true sys).2
      = { coord := onError v (some ⟨prev, fid⟩)
            ⟨sys.coord.caches.map (fun c => c.map (fun r =>
                if r.id == v.recordId then applyOptimistic v ns now r else r)),
             addOperation sys.coord.ops v.recordId v.action prev.status fid ts⟩,
          server := sys.server } := by
    unfold runMutate
    rw [honm]
    rfl
  rw [hrun]
  refine ⟨onError_caches_anchor v ⟨prev, fid⟩ _, ?_, ?_⟩
  · simp only [onError]
    rw [getOperations_removeOperation_self, getOperations_addOperation_self]
    exact filter_append_fresh _ _ fid rfl (fun o ho => hfresh o ho)
  · intro hemp
    rw [hasPendingOps_eq_isEmpty] at hemp
    simp only [onError]
    rw [hasPendingOps_eq_isEmpty, getOperations_removeOperation_self,
      getOperations_addOperation_self,
      filter_append_fresh _ _ fid rfl (fun o ho => hfresh o ho)]
    exact hemp

/-- Witness for C3 at a concrete failing mutate with no overlap. -/
theorem c3_rollback_witness :
    getOperations ((runMutate ⟨"e1", ActionType.approve, none⟩ "opA" 1 "tA" "tS" true
        ⟨⟨[[reviewRecord]], []⟩, []⟩).2).coord.ops "e1"
      = getOperations ([] : OpsMap) "e1" :=
  (c3_rollback_restores_anchor ⟨⟨[[reviewRecord]], []⟩, []⟩ ⟨"e1", ActionType.approve, none⟩
    "opA" 1 "tA" "tS" reviewRecord Status.Approved rfl rfl
    (by intro op hop; cases hop)).2.1

/-- C4 counterexample: in the ordering where A has not yet committed when B
begins, B's anchor is Approved (the optimistic state already written by A),
not InReview as the claim states, evaluated on the concrete entity e1. -/
theorem c4_anchor_counterexample :
    overlapRunB.1.toOption.map (fun ctx => ctx.previousRecord.status)
      = some Status.Approved ∧
    ¬ (overlapRunB.1.toOption.map (fun ctx => ctx.previousRecord.status)
        = some Status.InReview) := by
  constructor
  · rfl
  · intro hcontra
    have h : overlapRunB.1.toOption.map (fun ctx => ctx.previousRecord.status)
        = some Status.Approved := rfl
    rw [h] at hcontra
    simp at hcontra

/-- C4 (amended): entity E starts at InReview; approve (A) is issued, then
block (B, reason policy) before A settles. B's snapshot is taken from the
cache already holding A's optimistic state, so B's anchor is Approved in both
orderings, not InReview. The optimistic state after B is Blocked carrying the
policy reason; a subsequent failure of A restores the cache to E itself (A's
anchor, InReview), not Blocked; when A commits first, B is validated and
applied against Approved and the terminal cache state is Blocked. -/
theorem c4_overlap_orderings (e : ContentRecord) (he : e.status = Status.InReview) :
    (overlapB e).1.toOption.map (fun ctx => ctx.previousRecord.status)
        = some Status.Approved ∧
    findRecord (overlapB e).2.caches e.id = some (blockedVariant e) ∧
    findRecord (overlapAFailsAfterB e).caches e.id = some e ∧
    (overlapBAfterCommit e).1.toOption.map (fun ctx => ctx.previousRecord.status)
        = some Status.Approved ∧
    findRecord (overlapBAfterCommit e).2.caches e.id = some (blockedVariant e) := by
  obtain ⟨i, pr, en, st0, im, fl, ua, br⟩ := e
  obtain rfl : st0 = Status.InReview := he
  have h1 : getNextStatus Status.InReview ActionType.approve = some Status.Approved := rfl
  have h2 : getNextStatus Status.Approved ActionType.block = some Status.Blocked := rfl
  have hs : (("opB" : String) == "opA") = false := by decide
  refine ⟨?_, ?_, ?_, ?_, ?_⟩ <;>
    simp [overlapA, overlapB, overlapAFailsAfterB, overlapACommits, overlapBAfterCommit,
      blockedVariant, onMutate, onError, onSuccess, findRecord, applyOptimistic,
      addOperation, removeOperation, mapGet_nil, mapGet_cons, mapSet, mapDelete, h1, h2,
      hs, Except.toOption, List.find?]

/-- Witness for C4 on the concrete entity e1. -/
theorem c4_overlap_witness :
    findRecord (overlapAFailsAfterB reviewRecord).caches "e1" = some reviewRecord :=
  (c4_overlap_orderings reviewRecord rfl).2.2.1

/-- C5 counterexample: a validated review mutation that also supplies a
reason changes the cached reason field, because the optimistic write applies
the nullish coalescing of the supplied reason instead of testing the action:
queuedRecord starts with no reason, and after review with reason sneaky the
cached record carries it. -/
theorem c5_reason_counterexample :
    queuedRecord.blockReason = none ∧
    reviewWithReasonRun.1.toOption.isSome = true ∧
    (findRecord reviewWithReasonRun.2.caches "c5").map (fun r => r.blockReason)
      = some (some "sneaky") :=
  ⟨rfl, rfl, rfl⟩

/-- C5 (amended): the committed record of a successful backing call keeps its
reason unchanged unless the action is block, in which case it equals the
supplied reason exactly; the optimistic cache write, however, leaves the
reason unchanged only when no reason is supplied, and sets it to the supplied
reason for every action when one is supplied. -/
theorem c5_reason_field_behavior (v : MutationVars) (ns : Status) (now : String)
    (r : ContentRecord) (params : MutationVars) (nowS : String)
    (store : List ContentRecord) (i : Nat) (orig : ContentRecord)
    (rec : ContentRecord) (store2 : List ContentRecord)
    (hidx : store.findIdx? (fun x => x.id == params.recordId) = some i)
    (hget : store[i]? = some orig)
    (hok : updateRecord false params nowS store = Except.ok (rec, store2)) :
    (v.blockReason = none → (applyOptimistic v ns now r).blockReason = r.blockReason) ∧
    (∀ b, v.blockReason = some b → (applyOptimistic v ns now r).blockReason = some b) ∧
    (params.action ≠ ActionType.block → rec.blockReason = orig.blockReason) ∧
    (params.action = ActionType.block → rec.blockReason = params.blockReason) := by
  refine ⟨?_, ?_, ?_, ?_⟩
  · intro h
    simp [applyOptimistic, h]
  · intro b hb
    simp [applyOptimistic, hb]
  all_goals {
    simp only [updateRecord, Bool.false_eq_true, if_false, hidx, hget] at hok
    cases hgn : getNextStatus orig.status params.action with
    | none =>
      rw [hgn] at hok
      cases hok
    | some ns2 =>
      rw [hgn] at hok
      simp only [Except.ok.injEq, Prod.mk.injEq] at hok
      obtain ⟨hrec, hstore⟩ := hok
      intro ha
      rw [← hrec]
      first
        | simp [beq_eq_false_iff_ne.mpr ha]
        | simp [ha]
  }

/-- Witness for C5: a block mutation with supplied reason commits exactly
that reason. -/
theorem c5_reason_witness :
    blockedQueuedRecord.blockReason = some "why" :=
  (c5_reason_field_behavior ⟨"c5", ActionType.block, some "why"⟩ Status.Blocked "tX"
    queuedRecord ⟨"c5", ActionType.block, some "why"⟩ "t9" [queuedRecord] 0 queuedRecord
    blockedQueuedRecord [blockedQueuedRecord] rfl rfl rfl).2.2.2 rfl

/-- C6 (confirmed): a batch publish over X in Approved and Y in Queued
commits exactly X advanced to Published, reports exactly Y as failed with the
invalid-transition error message, does not roll back or abort X on account of
Y (the final store keeps X published and Y untouched, and no error escapes
the aggregation), and the surfaced classification is the mixed-outcome
warning. -/
theorem c6_batch_mixed_outcome (x y : ContentRecord) (nowS : String)
    (hx : x.status = Status.Approved) (hy : y.status = Status.Queued)
    (hxy : x.id ≠ y.id) :
    (batchUpdate (fun _ => false) [x.id, y.id] ActionType.publish none nowS
        [x, y]).1.successful = [publishedVariant x nowS] ∧
    (batchUpdate (fun _ => false) [x.id, y.id] ActionType.publish none nowS
        [x, y]).1.failed
      = [(y.id, "Invalid transition: Cannot publish a record with status \"Queued\"")] ∧
    (batchUpdate (fun _ => false) [x.id, y.id] ActionType.publish none nowS
        [x, y]).2 = [publishedVariant x nowS, y] ∧
    classifyBatch
      (batchUpdate (fun _ => false) [x.id, y.id] ActionType.publish none nowS
        [x, y]).1.successful.length
      (batchUpdate (fun _ => false) [x.id, y.id] ActionType.publish none nowS
        [x, y]).1.failed.length = BatchToast.warningToast := by
  obtain ⟨xi, xp, xe, xs, xm, xf, xu, xb⟩ := x
  obtain ⟨yi, yp, ye, ys, ym, yf, yu, yb⟩ := y
  obtain rfl : xs = Status.Approved := hx
  obtain rfl : ys = Status.Queued := hy
  have hxyne : (xi == yi) = false := beq_eq_false_iff_ne.mpr hxy
  have h1 : getNextStatus Status.Approved ActionType.publish = some Status.Published := rfl
  have h2 : getNextStatus Status.Queued ActionType.publish = none := rfl
  have hmsg : (invalidTransitionError ActionType.publish Status.Queued).message
      = "Invalid transition: Cannot publish a record with status \"Queued\"" := rfl
  refine ⟨?_, ?_, ?_, ?_⟩ <;>
    simp [batchUpdate, updateRecord, publishedVariant, h1, h2, hxyne, hmsg,
      classifyBatch]

/-- Witness for C6 on two concrete records. -/
theorem c6_batch_witness :
    (batchUpdate (fun _ => false) ["x1", "c5"] ActionType.publish none "t7"
        [approvedRecord, queuedRecord]).1.failed
      = [("c5", "Invalid transition: Cannot publish a record with status \"Queued\"")] :=
  (c6_batch_mixed_outcome approvedRecord queuedRecord "t7" rfl rfl (by decide)).2.1

end PubCtl
